import Mathlib

/-!
Verification development for the time-series aligner/windower of the
greenhouse-effect-experiment repository (figure--indoorheating/utils.py).

The embedding models a pandas DataFrame as an explicit list of rows, each
carrying its pandas index label (`idx`), its parsed `Datetime` value
(`datetime`, in seconds), and the remaining named numeric columns
(`cols`).  The numeric domain (timestamps, seconds, temperatures) is
modelled as `Int`: the claims under study are order- and
translation-algebraic, and the logged data is sampled at whole-second
resolution; no claim depends on fractional values.  Python
exceptions are modelled with `Except PyError`.  The functions
`find_target_temp_index`, `filter_time_periods` (split into the per-period
pass `phase1` and the alignment pass `shiftAll`) and the clipping step of
`create_shorter_version` (`clipLine`) are translated line by line from the
source.
-/

/-- Row of a raw source DataFrame: pandas index label, parsed Datetime
(seconds since some epoch), and the named sensor columns. -/
structure Row where
  idx : Nat
  datetime : Int
  cols : List (String × Int)
deriving DecidableEq

/-- Source DataFrame: its column names and its rows. -/
structure DataFrame where
  columns : List String
  rows : List Row
deriving DecidableEq

/-- Row of a processed period DataFrame: as `Row`, plus the computed
relative-seconds column written by `period_df[seconds] = ...`. -/
structure PRow where
  idx : Nat
  datetime : Int
  cols : List (String × Int)
  seconds : Int
deriving DecidableEq

/-- Column access `df[c]` on a processed row: the assigned relative-seconds
column shadows any source column of the same name (pandas column
assignment overwrites). -/
def PRow.val (r : PRow) (c : String) : Int :=
  if c = "seconds" then r.seconds else ((r.cols.lookup c).getD 0)

/-- Processed period DataFrame (`period_df` with its added seconds column). -/
structure PFrame where
  columns : List String
  rows : List PRow
deriving DecidableEq

/-- Entry of the `time_periods` dict: declared start, declared end, and the
source dataset, as in the Python `time_range` dicts. -/
structure TimeRange where
  start : Int
  endTime : Int
  data : DataFrame
deriving DecidableEq

/-- Python exceptions that the translated code can raise. -/
inductive PyError where
  | keyError (payload : String)
  | zeroDivisionError
  | typeError
deriving DecidableEq

deriving instance DecidableEq for Except

/-- Rendered text of an exception, as Python would display it.  A
`KeyError` raised by `df[col]` carries exactly the missing column name. -/
def errorText : PyError → String
  | .keyError payload => payload
  | .zeroDivisionError => "division by zero"
  | .typeError => "unsupported operand type"

/-- Character-list prefix test, used to state substring facts about error
messages. -/
def startsWithL : List Char → List Char → Bool
  | [], _ => true
  | _ :: _, [] => false
  | a :: as, b :: bs => a == b && startsWithL as bs

/-- Character-list substring test. -/
def occursInL (pat : List Char) : List Char → Bool
  | [] => startsWithL pat []
  | b :: bs => startsWithL pat (b :: bs) || occursInL pat bs

/-- Whether the rendered text of an exception mentions the string `s`. -/
def errorMentions (e : PyError) (s : String) : Bool :=
  occursInL s.toList (errorText e).toList

/-- Translation of `find_target_temp_index(df, temp_col, target_temp)`:
`mask = df[temp_col].astype(float) <= target_temp`;
`if mask.any(): return df.index[mask].min() else: return None`.
A missing column raises `KeyError(temp_col)`. -/
def find_target_temp_index (df : PFrame) (temp_col : String) (target_temp : Int) :
    Except PyError (Option Nat) :=
  if df.columns.contains temp_col then
    .ok (((df.rows.filter (fun r => decide (PRow.val r temp_col ≤ target_temp))).map
      (fun r => r.idx)).min?)
  else
    .error (.keyError temp_col)

/-- Step-1 selection: `mask = (Datetime >= start - offset) & (Datetime <= end)`,
`period_df = source_data[mask]`. -/
def selectRows (tr : TimeRange) (start_offset : Int) : List Row :=
  tr.data.rows.filter
    (fun r => decide (tr.start - start_offset ≤ r.datetime) && decide (r.datetime ≤ tr.endTime))

/-- Columns of the processed period frame after `period_df[seconds] = ...`
(pandas appends the column unless it already exists). -/
def processColumns (cs : List String) : List String :=
  if cs.contains ("seconds") then cs else cs ++ ["seconds"]

/-- Step-3 relative-seconds computation on the retained rows:
`(Datetime - Datetime.iloc[0]).dt.total_seconds() - start_offset`. -/
def addSeconds (rows : List Row) (start_offset : Int) : List PRow :=
  match rows with
  | [] => []
  | r0 :: _ =>
    rows.map (fun r =>
      { idx := r.idx, datetime := r.datetime, cols := r.cols,
        seconds := (r.datetime - r0.datetime) - start_offset })

/-- One period's processed frame (selection plus relative-seconds column). -/
def processPeriod (tr : TimeRange) (start_offset : Int) : PFrame :=
  { columns := processColumns tr.data.columns,
    rows := addSeconds (selectRows tr start_offset) start_offset }

/-- Label-based access `period_df.loc[i, seconds]`; the label is always one
of the frame's own labels at every call site, so the default is unreachable. -/
def secondsAt (df : PFrame) (i : Nat) : Int :=
  match df.rows.find? (fun r => r.idx == i) with
  | some r => r.seconds
  | none => 0

/-- Diagnostic printed when a period's selection is empty. -/
def noDataWarning (n : String) : String :=
  "No data found for " ++ n ++ " period!"

/-- Diagnostic printed when a period never reaches the target temperature. -/
def notFoundWarning (n : String) : String :=
  "Warning: Could not find the target temperature in " ++ n ++ " period!"

/-- Diagnostic printed when alignment is abandoned for the whole batch. -/
def skipAlignmentWarning : String :=
  "Warning: Some periods do not reach the target temperature. Skipping additional alignment."

/-- State accumulated by the per-period loop of `filter_time_periods`:
`period_data`, `reference_points`, and the warning messages printed. -/
structure Phase1Out where
  period_data : List (String × PFrame)
  reference_points : List (String × Option Int)
  warnings : List String
deriving DecidableEq

/-- One iteration of the per-period loop of `filter_time_periods` (lines
72-108 of utils.py): select, compute relative seconds, and, when
`align_to_temp` and both alignment parameters are given, record the
period's reference point (or `None` with a warning).  `res` is the outcome
of the remaining iterations; a failure in this period takes precedence, as
the Python loop raises before reaching later periods. -/
def phase1Step (n : String) (tr : TimeRange) (start_offset : Int) (align_to_temp : Bool)
    (target_temp : Option Int) (apparatus_bottom_col : Option String)
    (res : Except PyError Phase1Out) : Except PyError Phase1Out :=
  if (selectRows tr start_offset).isEmpty then
    match res with
    | .ok p => .ok ⟨p.period_data, p.reference_points, noDataWarning n :: p.warnings⟩
    | .error e => .error e
  else
    match align_to_temp, target_temp, apparatus_bottom_col with
    | true, some t, some c =>
      match find_target_temp_index (processPeriod tr start_offset) c t with
      | .error e => .error e
      | .ok (some i) =>
        match res with
        | .ok p => .ok ⟨(n, processPeriod tr start_offset) :: p.period_data,
                        (n, some (secondsAt (processPeriod tr start_offset) i)) ::
                          p.reference_points,
                        p.warnings⟩
        | .error e => .error e
      | .ok none =>
        match res with
        | .ok p => .ok ⟨(n, processPeriod tr start_offset) :: p.period_data,
                        (n, none) :: p.reference_points,
                        notFoundWarning n :: p.warnings⟩
        | .error e => .error e
    | _, _, _ =>
      match res with
      | .ok p => .ok ⟨(n, processPeriod tr start_offset) :: p.period_data,
                      p.reference_points, p.warnings⟩
      | .error e => .error e

/-- The whole per-period loop of `filter_time_periods`, iterating
`phase1Step` over the batch in declaration order. -/
def phase1 (start_offset : Int) (align_to_temp : Bool) (target_temp : Option Int)
    (apparatus_bottom_col : Option String) :
    List (String × TimeRange) → Except PyError Phase1Out
  | [] => .ok ⟨[], [], []⟩
  | (n, tr) :: rest =>
    phase1Step n tr start_offset align_to_temp target_temp apparatus_bottom_col
      (phase1 start_offset align_to_temp target_temp apparatus_bottom_col rest)

/-- Uniform per-period shift `df[seconds] = df[seconds] - time_shift`. -/
def shiftFrame (df : PFrame) (time_shift : Int) : PFrame :=
  { df with rows := df.rows.map (fun r => { r with seconds := r.seconds - time_shift }) }

/-- The alignment loop (lines 117-126 of utils.py): every stored period is
shifted by `reference_points[period_name]`.  A missing key would be a
`KeyError`, a `None` value a `TypeError`; both are unreachable at the call
site because the loop runs only after the all-recorded check. -/
def shiftAll : List (String × PFrame) → List (String × Option Int) →
    Except PyError (List (String × PFrame))
  | [], _ => .ok []
  | (n, df) :: rest, refs =>
    match refs.lookup n with
    | some (some ref) =>
      match shiftAll rest refs with
      | .ok others => .ok ((n, shiftFrame df ref) :: others)
      | .error e => .error e
    | some none => .error .typeError
    | none => .error (.keyError n)

/-- Result of `filter_time_periods`: the returned mapping and the warning
messages printed along the way. -/
structure FilterResult where
  period_data : List (String × PFrame)
  warnings : List String
deriving DecidableEq

/-- Translation of `filter_time_periods` (utils.py lines 67-130).  After the
per-period loop: when `align_to_temp` and every recorded reference point is
non-`None`, the code computes `sum(reference_points.values()) /
len(reference_points)` — a `ZeroDivisionError` when no reference point was
recorded at all — and then shifts every period by its own reference point;
when `align_to_temp` holds but some reference point is `None`, it prints the
skip warning and leaves the Step-3 values untouched. -/
def filter_time_periods (time_periods : List (String × TimeRange)) (start_offset : Int)
    (align_to_temp : Bool) (target_temp : Option Int) (apparatus_bottom_col : Option String) :
    Except PyError FilterResult :=
  match phase1 start_offset align_to_temp target_temp apparatus_bottom_col time_periods with
  | .error e => .error e
  | .ok p =>
    if align_to_temp && p.reference_points.all (fun x => x.2.isSome) then
      if p.reference_points.length = 0 then
        .error .zeroDivisionError
      else
        match shiftAll p.period_data p.reference_points with
        | .ok shifted => .ok ⟨shifted, p.warnings⟩
        | .error e => .error e
    else if align_to_temp then
      .ok ⟨p.period_data, p.warnings ++ [skipAlignmentWarning]⟩
    else
      .ok ⟨p.period_data, p.warnings⟩

/-- The clipping step of `create_shorter_version` (utils.py lines 163-171):
`mask = (x_data >= -60) & (x_data <= mins*60)` applied to one line's
`(x, y)` points. -/
def clipLine (mins : Int) (pts : List (Int × Int)) : List (Int × Int) :=
  pts.filter (fun pt => decide (-60 ≤ pt.1) && decide (pt.1 ≤ mins * 60))

/-- The `(relative_seconds, value)` pairs a processed frame hands to the
plotting collaborator for one sensor column. -/
def lineData (df : PFrame) (c : String) : List (Int × Int) :=
  df.rows.map (fun r => (r.seconds, PRow.val r c))

/-- The period frames that the per-period loop stores, expressed directly:
every non-empty selection is processed, every empty one is skipped. -/
def periodDataOf (tps : List (String × TimeRange)) (start_offset : Int) :
    List (String × PFrame) :=
  tps.filterMap (fun x =>
    if (selectRows x.2 start_offset).isEmpty then none
    else some (x.1, processPeriod x.2 start_offset))

/-- The reference point the loop records for one stored period frame. -/
def refComputed (df : PFrame) (c : String) (t : Int) : Option Int :=
  match find_target_temp_index df c t with
  | .ok (some i) => some (secondsAt df i)
  | _ => none

/-- First recorded reference value for a period name (0 when absent;
used only under the hypothesis that the lookup yields a value). -/
def lookupRef (refs : List (String × Option Int)) (n : String) : Int :=
  match refs.lookup n with
  | some (some v) => v
  | _ => 0

/-- Concrete fixture row: time 0, temperature 50. -/
def rA0 : Row := ⟨0, 0, [("T", 50)]⟩

/-- Concrete fixture row: time 10, temperature 45. -/
def rA1 : Row := ⟨1, 10, [("T", 45)]⟩

/-- Concrete fixture row: time 20, temperature 40. -/
def rA2 : Row := ⟨2, 20, [("T", 40)]⟩

/-- Concrete fixture row: time 30, temperature 35. -/
def rA3 : Row := ⟨3, 30, [("T", 35)]⟩

/-- Concrete fixture: a cooling log sampled every 10 s, dropping 50, 45, 40, 35. -/
def dfA : DataFrame := ⟨["T"], [rA0, rA1, rA2, rA3]⟩

/-- Concrete fixture period over `dfA` with declared start 10 and end 30. -/
def trA : TimeRange := ⟨10, 30, dfA⟩

/-- Concrete fixture: a second log that reaches the target exactly (value 44). -/
def dfB : DataFrame :=
  ⟨["T"], [⟨0, 100, [("T", 46)]⟩, ⟨1, 110, [("T", 44)]⟩, ⟨2, 120, [("T", 40)]⟩]⟩

/-- Concrete fixture period over `dfB`. -/
def trB : TimeRange := ⟨110, 120, dfB⟩

/-- Concrete fixture: a log that never drops to the target (constant 50). -/
def dfC : DataFrame := ⟨["T"], [⟨0, 200, [("T", 50)]⟩, ⟨1, 210, [("T", 50)]⟩]⟩

/-- Concrete fixture period over `dfC`. -/
def trC : TimeRange := ⟨210, 220, dfC⟩

/-- Concrete fixture: a one-row log used for the missing-column scenario. -/
def dfD : DataFrame := ⟨["T"], [⟨0, 0, [("T", 50)]⟩]⟩

/-- Concrete fixture period over `dfD`. -/
def trD : TimeRange := ⟨0, 0, dfD⟩

/-- Two-period batch in which both periods reach the target. -/
def tpsAB : List (String × TimeRange) := [("A", trA), ("B", trB)]

/-- Two-period batch in which period C never reaches the target. -/
def tpsAC : List (String × TimeRange) := [("A", trA), ("C", trC)]

/-- The per-period pass on `tpsAB` (target 44, pre-roll 10). -/
def pAB : Phase1Out :=
  match phase1 10 true (some 44) (some ("T")) tpsAB with
  | .ok p => p
  | .error _ => ⟨[], [], []⟩

/-- The per-period pass on `tpsAC` (target 44, pre-roll 10). -/
def pAC : Phase1Out :=
  match phase1 10 true (some 44) (some ("T")) tpsAC with
  | .ok p => p
  | .error _ => ⟨[], [], []⟩

/-- Folding `min` over elements that all dominate the seed returns the seed. -/
theorem foldl_min_eq_self {a : Nat} : ∀ {l : List Nat}, (∀ b ∈ l, a ≤ b) → l.foldl min a = a := by
  intro l
  induction l generalizing a with
  | nil => intro _; rfl
  | cons b t ih =>
    intro h
    have hab : min a b = a := min_eq_left (h b (List.mem_cons_self b t))
    simp only [List.foldl_cons, hab]
    exact ih (fun c hc => h c (List.mem_cons_of_mem b hc))

/-- On a sorted list the minimum is the head. -/
theorem min?_eq_head?_of_sorted (l : List Nat) (h : l.Pairwise (· ≤ ·)) :
    l.min? = l.head? := by
  cases l with
  | nil => rfl
  | cons a t =>
    have hle : ∀ b ∈ t, a ≤ b := (List.pairwise_cons.mp h).1
    simp [List.min?, foldl_min_eq_self hle]

/-- The head of a filtered list is the first match. -/
theorem head?_filter_eq_find? {α : Type} (p : α → Bool) (l : List α) :
    (l.filter p).head? = l.find? p := by
  induction l with
  | nil => rfl
  | cons a t ih =>
    cases hpa : p a <;> simp [List.filter_cons, List.find?_cons, hpa, ih]

/-- A successful lookup returns a stored value. -/
theorem lookup_mem_value {β : Type} :
    ∀ (l : List (String × β)) (a : String) (b : β),
      l.lookup a = some b → ∃ k, (k, b) ∈ l := by
  intro l
  induction l with
  | nil => intro a b h; simp [List.lookup] at h
  | cons hd t ih =>
    intro a b h
    obtain ⟨k, v⟩ := hd
    rw [List.lookup] at h
    cases hk : (a == k) with
    | true =>
      rw [hk] at h
      simp only at h
      have hvb : v = b := by injection h
      exact ⟨k, List.mem_cons.mpr (Or.inl (by rw [hvb]))⟩
    | false =>
      rw [hk] at h
      simp only at h
      obtain ⟨k2, hk2⟩ := ih a b h
      exact ⟨k2, List.mem_cons_of_mem _ hk2⟩

/-- Lookup in an association list built by mapping a function over the values,
when the keys are distinct, retrieves the image of the matching entry. -/
theorem lookup_map_of_nodup {γ β : Type} (f : String × γ → β) :
    ∀ (l : List (String × γ)) (nd : String × γ),
      (l.map Prod.fst).Nodup → nd ∈ l →
      (l.map (fun x => (x.1, f x))).lookup nd.1 = some (f nd) := by
  intro l
  induction l with
  | nil => intro nd _ hmem; cases hmem
  | cons hd tl ih =>
    intro nd hnd hmem
    have hnd1 : (hd.1 :: tl.map Prod.fst).Nodup := by
      rw [← List.map_cons]
      exact hnd
    have hnotmem : hd.1 ∉ tl.map Prod.fst := (List.nodup_cons.mp hnd1).1
    have hndtl : (tl.map Prod.fst).Nodup := (List.nodup_cons.mp hnd1).2
    rcases List.mem_cons.mp hmem with rfl | hmem2
    · simp [List.lookup]
    · have hne : nd.1 ≠ hd.1 := by
        intro he
        exact hnotmem (he ▸ List.mem_map_of_mem Prod.fst hmem2)
      have hbeq : (nd.1 == hd.1) = false := beq_eq_false_iff_ne.mpr hne
      simp only [List.map_cons, List.lookup, hbeq]
      exact ih nd hndtl hmem2

/-- A pattern is a substring of itself. -/
theorem startsWithL_self : ∀ l : List Char, startsWithL l l = true := by
  intro l
  induction l with
  | nil => rfl
  | cons a t ih => simp [startsWithL, ih]

/-- `occursInL` finds the pattern in itself. -/
theorem occursInL_self : ∀ l : List Char, occursInL l l = true := by
  intro l
  cases l with
  | nil => rfl
  | cons a t => simp [occursInL, startsWithL_self]

/-- A found target index is the index label of some row of the frame. -/
theorem find_target_some_row {df : PFrame} {c : String} {t : Int} {i : Nat}
    (h : find_target_temp_index df c t = .ok (some i)) :
    ∃ r ∈ df.rows, r.idx = i := by
  by_cases hc : df.columns.contains c = true
  · simp only [find_target_temp_index, hc, if_true] at h
    simp only [Except.ok.injEq] at h
    have hmem := List.min?_mem (fun a b => min_choice a b) h
    obtain ⟨r, hr, hidx⟩ := List.mem_map.mp hmem
    exact ⟨r, (List.mem_filter.mp hr).1, hidx⟩
  · simp only [find_target_temp_index, hc, if_false] at h
    cases h

/-- `secondsAt` at a label that belongs to the frame reads some row's seconds. -/
theorem secondsAt_exists {df : PFrame} {i : Nat} (h : ∃ r ∈ df.rows, r.idx = i) :
    ∃ r ∈ df.rows, r.seconds = secondsAt df i := by
  obtain ⟨r, hr, hi⟩ := h
  have hsome : (df.rows.find? (fun r => r.idx == i)).isSome := by
    rw [List.find?_isSome]
    exact ⟨r, hr, by simp [hi]⟩
  obtain ⟨r2, hr2⟩ := Option.isSome_iff_exists.mp hsome
  exact ⟨r2, List.mem_of_find?_eq_some hr2, by simp [secondsAt, hr2]⟩

/-- A recorded reference point is the relative-seconds value of some row of
its period's frame. -/
theorem refComputed_row {df : PFrame} {c : String} {t v : Int}
    (h : refComputed df c t = some v) :
    ∃ r ∈ df.rows, r.seconds = v := by
  unfold refComputed at h
  cases hft : find_target_temp_index df c t with
  | error e => rw [hft] at h; simp at h
  | ok oi =>
    cases oi with
    | none => rw [hft] at h; simp at h
    | some i =>
      rw [hft] at h
      simp only at h
      obtain ⟨r, hr, hs⟩ := secondsAt_exists (find_target_some_row hft)
      exact ⟨r, hr, by rw [hs]; injection h⟩

/-- Inversion of the per-period loop when alignment is requested with both
parameters: the stored frames are exactly the processed non-empty periods,
and the recorded reference points pair each stored frame with the reference
its own `find_target_temp_index` call produced. -/
theorem phase1_spec (off t : Int) (c : String) :
    ∀ tps p, phase1 off true (some t) (some c) tps = .ok p →
      p.period_data = periodDataOf tps off
      ∧ p.reference_points
          = p.period_data.map (fun nd => (nd.1, refComputed nd.2 c t)) := by
  intro tps
  induction tps with
  | nil =>
    intro p h
    simp only [phase1, Except.ok.injEq] at h
    subst h
    exact ⟨rfl, rfl⟩
  | cons hd tl ih =>
    obtain ⟨n, tr⟩ := hd
    intro p h
    simp only [phase1] at h
    cases hrec : phase1 off true (some t) (some c) tl with
    | error e =>
      rw [hrec] at h
      simp only [phase1Step] at h
      by_cases hsel : (selectRows tr off).isEmpty = true
      · rw [if_pos hsel] at h
        simp at h
      · rw [if_neg hsel] at h
        cases hfind : find_target_temp_index (processPeriod tr off) c t with
        | error e2 => rw [hfind] at h; simp at h
        | ok oi => rw [hfind] at h; cases oi <;> simp at h
    | ok p2 =>
      rw [hrec] at h
      simp only [phase1Step] at h
      obtain ⟨hpd, hrefs⟩ := ih p2 hrec
      by_cases hsel : (selectRows tr off).isEmpty = true
      · rw [if_pos hsel] at h
        simp only [Except.ok.injEq] at h
        subst h
        have hsel2 : selectRows tr off = [] := by simpa using hsel
        exact ⟨by simp [periodDataOf, List.filterMap_cons, hsel2, hpd], hrefs⟩
      · rw [if_neg hsel] at h
        have hsel2 : ¬ selectRows tr off = [] := by simpa using hsel
        cases hfind : find_target_temp_index (processPeriod tr off) c t with
        | error e => rw [hfind] at h; simp at h
        | ok oi =>
          rw [hfind] at h
          cases oi with
          | some i =>
            simp only [Except.ok.injEq] at h
            subst h
            constructor
            · simp [periodDataOf, List.filterMap_cons, hsel2, hpd]
            · simp [List.map_cons, hrefs, refComputed, hfind]
          | none =>
            simp only [Except.ok.injEq] at h
            subst h
            constructor
            · simp [periodDataOf, List.filterMap_cons, hsel2, hpd]
            · simp [List.map_cons, hrefs, refComputed, hfind]

/-- When alignment is requested without a target value or without a reference
column, the per-period loop succeeds and records no reference point at all. -/
theorem phase1_refs_nil_of_params (off : Int) (a : Bool) (tt : Option Int) (cc : Option String)
    (hcond : tt = none ∨ cc = none) :
    ∀ tps, ∃ p, phase1 off a tt cc tps = .ok p ∧ p.reference_points = [] := by
  intro tps
  induction tps with
  | nil => exact ⟨⟨[], [], []⟩, rfl, rfl⟩
  | cons hd tl ih =>
    obtain ⟨n, tr⟩ := hd
    obtain ⟨p, hp, hrefs⟩ := ih
    by_cases hsel : (selectRows tr off).isEmpty = true
    · refine ⟨⟨p.period_data, p.reference_points, noDataWarning n :: p.warnings⟩, ?_, hrefs⟩
      simp only [phase1]
      rw [hp]
      simp [phase1Step, hsel]
    · refine ⟨⟨(n, processPeriod tr off) :: p.period_data, p.reference_points, p.warnings⟩,
        ?_, hrefs⟩
      simp only [phase1]
      rw [hp]
      rcases hcond with hcc | hcc <;> subst hcc
      · cases a <;> cases cc <;> simp [phase1Step, hsel]
      · cases a <;> cases tt <;> simp [phase1Step, hsel]

/-- When every period's selection is empty, the per-period loop succeeds with
no stored frame and no recorded reference point. -/
theorem phase1_all_empty (off : Int) (a : Bool) (tt : Option Int) (cc : Option String) :
    ∀ tps, (∀ x ∈ tps, (selectRows x.2 off).isEmpty = true) →
      ∃ p, phase1 off a tt cc tps = .ok p ∧ p.period_data = [] ∧ p.reference_points = [] := by
  intro tps
  induction tps with
  | nil => exact fun _ => ⟨⟨[], [], []⟩, rfl, rfl, rfl⟩
  | cons hd tl ih =>
    intro hall
    obtain ⟨n, tr⟩ := hd
    obtain ⟨p, hp, hpd, hrefs⟩ := ih (fun x hx => hall x (List.mem_cons_of_mem _ hx))
    have hsel : (selectRows tr off).isEmpty = true := by
      simpa using hall (n, tr) (List.mem_cons_self _ _)
    refine ⟨⟨p.period_data, p.reference_points, noDataWarning n :: p.warnings⟩, ?_, hpd, hrefs⟩
    simp only [phase1]
    rw [hp]
    simp [phase1Step, hsel]

/-- The alignment loop succeeds when every stored period has a recorded,
non-`None` reference value, and shifts each frame by the value recorded under
its own name. -/
theorem shiftAll_ok (refs : List (String × Option Int)) :
    ∀ pd : List (String × PFrame),
      (∀ nd ∈ pd, ∃ v, refs.lookup nd.1 = some (some v)) →
      shiftAll pd refs
        = .ok (pd.map (fun nd => (nd.1, shiftFrame nd.2 (lookupRef refs nd.1)))) := by
  intro pd
  induction pd with
  | nil => exact fun _ => rfl
  | cons hd tl ih =>
    intro h
    obtain ⟨n, df⟩ := hd
    obtain ⟨v, hv⟩ := h (n, df) (List.mem_cons_self _ _)
    have hv2 : List.lookup n refs = some (some v) := hv
    have hrec := ih (fun nd hnd => h nd (List.mem_cons_of_mem _ hnd))
    simp [shiftAll, hv2, hrec, lookupRef]

/-- The names of the stored period frames form a sublist of the batch names. -/
theorem periodDataOf_keys_sublist (tps : List (String × TimeRange)) (off : Int) :
    ((periodDataOf tps off).map Prod.fst).Sublist (tps.map Prod.fst) := by
  induction tps with
  | nil => simp [periodDataOf]
  | cons hd tl ih =>
    by_cases hsel : selectRows hd.2 off = []
    · simp only [periodDataOf, List.filterMap_cons, List.map_cons]
      simp only [hsel, List.isEmpty_nil, if_pos]
      exact List.Sublist.cons _ (by simpa [periodDataOf] using ih)
    · simp only [periodDataOf, List.filterMap_cons, List.map_cons]
      have hsel2 : (selectRows hd.2 off).isEmpty = false := by
        cases hl : selectRows hd.2 off with
        | nil => exact absurd hl hsel
        | cons x xs => rfl
      simp only [hsel2, Bool.false_eq_true, if_neg, not_false_iff, List.map_cons]
      exact List.Sublist.cons₂ _ (by simpa [periodDataOf] using ih)

/-- C1: when alignment is requested and some non-empty period's reference
point was recorded as missing (`None`), `filter_time_periods` applies no
shift at all: it returns every stored period frame exactly as Step 3
computed it (`periodDataOf`), and the only additional externally visible
effect is the batch-level skip warning appended to the diagnostics. -/
theorem filter_time_periods_skips_alignment_on_missing_reference
    (tps : List (String × TimeRange)) (off t : Int) (c : String) (p : Phase1Out) (n : String)
    (hp : phase1 off true (some t) (some c) tps = .ok p)
    (hmem : (n, none) ∈ p.reference_points) :
    filter_time_periods tps off true (some t) (some c)
      = .ok ⟨p.period_data, p.warnings ++ [skipAlignmentWarning]⟩
    ∧ p.period_data = periodDataOf tps off := by
  have hall : p.reference_points.all (fun x => x.2.isSome) = false := by
    cases hb : p.reference_points.all (fun x => x.2.isSome) with
    | false => rfl
    | true =>
      have h2 := List.all_eq_true.mp hb (n, none) hmem
      simp at h2
  constructor
  · simp [filter_time_periods, hp, hall]
  · exact (phase1_spec off t c tps p hp).1

/-- C10: when alignment is requested but no reference point is ever
recorded — because the target value is `None`, or the reference column is
`None`, or every period's selection is empty — the average over the empty
reference-point dict divides by zero and `filter_time_periods` raises
`ZeroDivisionError` instead of returning a mapping. -/
theorem filter_time_periods_zero_division_on_no_references
    (tps : List (String × TimeRange)) (off : Int) (tt : Option Int) (cc : Option String)
    (hcond : tt = none ∨ cc = none ∨ ∀ x ∈ tps, (selectRows x.2 off).isEmpty = true) :
    filter_time_periods tps off true tt cc = .error .zeroDivisionError := by
  have hex : ∃ p, phase1 off true tt cc tps = .ok p ∧ p.reference_points = [] := by
    rcases hcond with h | h | h
    · exact phase1_refs_nil_of_params off true tt cc (Or.inl h) tps
    · exact phase1_refs_nil_of_params off true tt cc (Or.inr h) tps
    · obtain ⟨p, hp, _, hrefs⟩ := phase1_all_empty off true tt cc tps h
      exact ⟨p, hp, hrefs⟩
  obtain ⟨p, hp, hrefs⟩ := hex
  simp [filter_time_periods, hp, hrefs]

/-- C2: when alignment is requested with both parameters, the period names
are distinct (as they are in a Python dict), every recorded reference point
is present, and at least one was recorded, `filter_time_periods` returns
every stored period shifted by the single constant recorded under its own
name — a uniform translation of the seconds column, no resampling — and
each period's reference sample (whose Step-3 seconds value is exactly the
recorded reference) lands at relative time zero. -/
theorem filter_time_periods_aligns_by_own_reference
    (tps : List (String × TimeRange)) (off t : Int) (c : String) (p : Phase1Out)
    (hp : phase1 off true (some t) (some c) tps = .ok p)
    (hnd : (tps.map Prod.fst).Nodup)
    (hall : p.reference_points.all (fun x => x.2.isSome) = true)
    (hne : p.reference_points ≠ []) :
    filter_time_periods tps off true (some t) (some c)
      = .ok ⟨p.period_data.map
          (fun nd => (nd.1, shiftFrame nd.2 (lookupRef p.reference_points nd.1))),
          p.warnings⟩
    ∧ ∀ nd ∈ p.period_data,
        p.reference_points.lookup nd.1
          = some (some (lookupRef p.reference_points nd.1))
        ∧ (shiftFrame nd.2 (lookupRef p.reference_points nd.1)).rows
            = nd.2.rows.map (fun r =>
                { r with seconds := r.seconds - lookupRef p.reference_points nd.1 })
        ∧ (∃ r ∈ nd.2.rows, r.seconds = lookupRef p.reference_points nd.1)
        ∧ ∃ r ∈ (shiftFrame nd.2 (lookupRef p.reference_points nd.1)).rows,
            r.seconds = 0 := by
  obtain ⟨hpd, hrefs⟩ := phase1_spec off t c tps p hp
  have hkeys : (p.period_data.map Prod.fst).Nodup := by
    rw [hpd]
    exact List.Nodup.sublist (periodDataOf_keys_sublist tps off) hnd
  have hlook : ∀ nd ∈ p.period_data,
      p.reference_points.lookup nd.1 = some (refComputed nd.2 c t) := by
    intro nd hmem
    rw [hrefs]
    exact lookup_map_of_nodup (fun x => refComputed x.2 c t) p.period_data nd hkeys hmem
  have hsome : ∀ nd ∈ p.period_data, ∃ v,
      p.reference_points.lookup nd.1 = some (some v) := by
    intro nd hmem
    have h1 := hlook nd hmem
    have hmemref : (nd.1, refComputed nd.2 c t) ∈ p.reference_points := by
      rw [hrefs]
      exact List.mem_map_of_mem _ hmem
    have hs := List.all_eq_true.mp hall _ hmemref
    simp only at hs
    obtain ⟨v, hv⟩ := Option.isSome_iff_exists.mp hs
    exact ⟨v, by rw [h1, hv]⟩
  have hshift := shiftAll_ok p.reference_points p.period_data hsome
  constructor
  · have hlen : ¬ p.reference_points.length = 0 := by
      simpa [List.length_eq_zero] using hne
    simp [filter_time_periods, hp, hall, hlen, hshift]
  · intro nd hmem
    obtain ⟨v, hv⟩ := hsome nd hmem
    have hlr : lookupRef p.reference_points nd.1 = v := by
      simp [lookupRef, hv]
    have h2 : refComputed nd.2 c t = some v := by
      have h1 := hlook nd hmem
      rw [hv] at h1
      injection h1 with h3
      exact h3.symm
    have hrow : ∃ r ∈ nd.2.rows, r.seconds = v := refComputed_row h2
    refine ⟨by rw [hlr]; exact hv, by rfl, by rw [hlr]; exact hrow, ?_⟩
    obtain ⟨r, hr, hs⟩ := hrow
    rw [hlr]
    refine ⟨{ r with seconds := r.seconds - v }, List.mem_map_of_mem _ hr, ?_⟩
    simp [hs]

/-- C3: on a frame whose index labels increase along the rows (as they do
for every pandas frame filtered from a `RangeIndex` source), with the
reference column present, `find_target_temp_index` returns exactly the
label of the first row in order whose reference value is less than or equal
to the target — the crossing is "reaches or drops below" — and returns
`None` precisely when no retained row's value is less than or equal to the
target. -/
theorem find_target_temp_index_first_crossing
    (df : PFrame) (c : String) (t : Int)
    (hc : df.columns.contains c = true)
    (hidx : List.Pairwise (fun a b : PRow => a.idx < b.idx) df.rows) :
    find_target_temp_index df c t
      = .ok ((df.rows.find? (fun r => decide (PRow.val r c ≤ t))).map (fun r => r.idx))
    ∧ (find_target_temp_index df c t = .ok none ↔
        ∀ r ∈ df.rows, ¬ (PRow.val r c ≤ t)) := by
  have hpw : ((df.rows.filter (fun r => decide (PRow.val r c ≤ t))).map
      (fun r => r.idx)).Pairwise (· ≤ ·) := by
    have h1 : (df.rows.filter (fun r => decide (PRow.val r c ≤ t))).Pairwise
        (fun a b => a.idx < b.idx) :=
      List.Pairwise.sublist (List.filter_sublist _) hidx
    exact (List.pairwise_map.mpr h1).imp le_of_lt
  have hmain : find_target_temp_index df c t
      = .ok ((df.rows.find? (fun r => decide (PRow.val r c ≤ t))).map (fun r => r.idx)) := by
    simp only [find_target_temp_index, hc, if_true]
    rw [min?_eq_head?_of_sorted _ hpw, List.head?_map, head?_filter_eq_find?]
  refine ⟨hmain, ?_⟩
  rw [hmain]
  simp only [Except.ok.injEq]
  constructor
  · intro h
    have hfind : df.rows.find? (fun r => decide (PRow.val r c ≤ t)) = none := by
      cases hf : df.rows.find? (fun r => decide (PRow.val r c ≤ t)) with
      | none => rfl
      | some r => rw [hf] at h; simp at h
    intro r hr hle
    have h2 := List.find?_eq_none.mp hfind r hr
    simp at h2
    exact absurd h2 (not_lt.mpr hle)
  · intro h
    have hfind : df.rows.find? (fun r => decide (PRow.val r c ≤ t)) = none :=
      List.find?_eq_none.mpr (fun x hx => by simpa using h x hx)
    rw [hfind]
    rfl

/-- C4: before any alignment shift, a period with non-empty selection maps
each retained row to relative seconds `(datetime - first_retained_datetime)
- preroll`, so the first retained sample sits exactly at `-preroll`,
independently of every other period. -/
theorem step3_relative_seconds_spec (tr : TimeRange) (off : Int) (r0 : Row) (rs : List Row)
    (h : selectRows tr off = r0 :: rs) :
    (processPeriod tr off).rows.map (fun r => r.seconds)
      = (r0 :: rs).map (fun r => (r.datetime - r0.datetime) - off)
    ∧ ((processPeriod tr off).rows.map (fun r => r.seconds)).head? = some (-off) := by
  have h1 : (processPeriod tr off).rows
      = (r0 :: rs).map (fun r =>
          ({ idx := r.idx, datetime := r.datetime, cols := r.cols,
             seconds := (r.datetime - r0.datetime) - off } : PRow)) := by
    simp [processPeriod, addSeconds, h]
  constructor
  · rw [h1, List.map_map]
    rfl
  · rw [h1]
    simp

/-- C5: the display-window clip is a pure filter — it returns a sublist of
the aligned points, altering no pair — and re-clipping a wider window to a
narrower one equals clipping the original data to the narrower window, so
any zoom level can be recomputed from the same aligned data. -/
theorem clipLine_pure_subfilter (pts : List (Int × Int)) (mins₁ mins₂ : Int)
    (h : mins₁ ≤ mins₂) :
    (clipLine mins₁ pts).Sublist pts
    ∧ clipLine mins₁ (clipLine mins₂ pts) = clipLine mins₁ pts := by
  refine ⟨List.filter_sublist pts, ?_⟩
  simp only [clipLine, List.filter_filter]
  refine List.filter_congr ?_
  intro x _
  by_cases h1 : (-60 : Int) ≤ x.1
  · by_cases h2 : x.1 ≤ mins₁ * 60
    · have h3 : x.1 ≤ mins₂ * 60 :=
        le_trans h2 (mul_le_mul_of_nonneg_right h (by norm_num))
      simp [h1, h2, h3]
    · simp [h1, h2]
  · simp [h1]

/-- C6: if a period's source rows are non-decreasing in timestamp, then the
selection is an order-preserving sublist, the Step-3 seconds are
non-decreasing, the uniform alignment shift keeps them non-decreasing, and
the clip only selects (a sublist) and never reorders, so the clipped line
is still non-decreasing in relative seconds. -/
theorem pipeline_preserves_order (tr : TimeRange) (off ref mins : Int) (c : String)
    (hsorted : List.Pairwise (fun a b : Row => a.datetime ≤ b.datetime) tr.data.rows) :
    (selectRows tr off).Sublist tr.data.rows
    ∧ List.Pairwise (fun a b : PRow => a.seconds ≤ b.seconds) (processPeriod tr off).rows
    ∧ List.Pairwise (fun a b : PRow => a.seconds ≤ b.seconds)
        (shiftFrame (processPeriod tr off) ref).rows
    ∧ (clipLine mins (lineData (shiftFrame (processPeriod tr off) ref) c)).Sublist
        (lineData (shiftFrame (processPeriod tr off) ref) c)
    ∧ List.Pairwise (fun u v : Int × Int => u.1 ≤ v.1)
        (clipLine mins (lineData (shiftFrame (processPeriod tr off) ref) c)) := by
  have hsub : (selectRows tr off).Sublist tr.data.rows := List.filter_sublist _
  have hselp : List.Pairwise (fun a b : Row => a.datetime ≤ b.datetime) (selectRows tr off) :=
    List.Pairwise.sublist hsub hsorted
  have hproc : List.Pairwise (fun a b : PRow => a.seconds ≤ b.seconds)
      (processPeriod tr off).rows := by
    show List.Pairwise _ (addSeconds (selectRows tr off) off)
    cases hsel : selectRows tr off with
    | nil => simp [addSeconds]
    | cons r0 rest =>
      rw [hsel] at hselp
      simp only [addSeconds]
      refine List.pairwise_map.mpr (hselp.imp ?_)
      intro a b hab
      dsimp
      omega
  have hshiftp : List.Pairwise (fun a b : PRow => a.seconds ≤ b.seconds)
      (shiftFrame (processPeriod tr off) ref).rows := by
    refine List.pairwise_map.mpr (hproc.imp ?_)
    intro a b hab
    dsimp
    omega
  have hline : List.Pairwise (fun u v : Int × Int => u.1 ≤ v.1)
      (lineData (shiftFrame (processPeriod tr off) ref) c) := by
    refine List.pairwise_map.mpr (hshiftp.imp ?_)
    intro a b hab
    exact hab
  exact ⟨hsub, hproc, hshiftp, List.filter_sublist _,
    List.Pairwise.sublist (List.filter_sublist _) hline⟩

/-- C7: the retained selection of a period is exactly the source rows whose
timestamp lies in the closed interval from `start - preroll` to `end`:
nothing outside is retained and nothing inside is dropped. -/
theorem selectRows_mem_iff (tr : TimeRange) (off : Int) (r : Row) :
    r ∈ selectRows tr off ↔
      r ∈ tr.data.rows ∧ tr.start - off ≤ r.datetime ∧ r.datetime ≤ tr.endTime := by
  simp [selectRows, List.mem_filter, and_assoc]

/-- C8: the aligner is a pure function of its arguments — two runs on equal
batches, offsets and alignment parameters return equal results; there is no
dependence on randomness or on the wall clock. -/
theorem filter_time_periods_deterministic
    (tps₁ tps₂ : List (String × TimeRange)) (off₁ off₂ : Int) (a₁ a₂ : Bool)
    (tt₁ tt₂ : Option Int) (cc₁ cc₂ : Option String)
    (h1 : tps₁ = tps₂) (h2 : off₁ = off₂) (h3 : a₁ = a₂) (h4 : tt₁ = tt₂) (h5 : cc₁ = cc₂) :
    filter_time_periods tps₁ off₁ a₁ tt₁ cc₁ = filter_time_periods tps₂ off₂ a₂ tt₂ cc₂ := by
  subst h1 h2 h3 h4 h5
  rfl

/-- C9 (amended): when alignment is requested and the first non-empty
period's frame lacks the named reference column, `filter_time_periods`
propagates the `KeyError` raised by the column access; the error names the
missing column (its payload is the column name), but nothing more. -/
theorem filter_time_periods_missing_column_keyerror
    (n : String) (tr : TimeRange) (rest : List (String × TimeRange)) (off t : Int) (c : String)
    (hsel : (selectRows tr off).isEmpty = false)
    (hc : (processPeriod tr off).columns.contains c = false) :
    filter_time_periods ((n, tr) :: rest) off true (some t) (some c)
      = .error (.keyError c)
    ∧ errorMentions (.keyError c) c = true := by
  constructor
  · have hft : find_target_temp_index (processPeriod tr off) c t = .error (.keyError c) := by
      have hc2 : c ∉ (processPeriod tr off).columns := by simpa using hc
      simp [find_target_temp_index, hc2]
    simp [filter_time_periods, phase1, phase1Step, hsel, hft]
  · simp [errorMentions, errorText, occursInL_self]

/-- C9 (counterexample to the claim as stated): on the concrete one-period
batch named `A` with requested column `B` absent from its table, the
aligner propagates `KeyError(B)`; the error text mentions the column `B`
but does not mention the period name `A` — the claim that the propagated
error names both the period and the column is false. -/
theorem missing_column_error_not_named_after_period :
    filter_time_periods [("A", trD)] 10 true (some 44) (some ("B"))
      = .error (.keyError ("B"))
    ∧ errorMentions (.keyError ("B")) ("B") = true
    ∧ errorMentions (.keyError ("B")) ("A") = false := by
  refine ⟨?_, ?_, ?_⟩ <;> decide

/-- Witness for C1 on the concrete batch `tpsAC`, whose period `C` never
reaches the target. -/
theorem filter_time_periods_skips_alignment_on_missing_reference_witness :
    filter_time_periods tpsAC 10 true (some 44) (some ("T"))
      = .ok ⟨pAC.period_data, pAC.warnings ++ [skipAlignmentWarning]⟩
    ∧ pAC.period_data = periodDataOf tpsAC 10 :=
  filter_time_periods_skips_alignment_on_missing_reference tpsAC 10 44 ("T") pAC ("C")
    (by decide) (by decide)

/-- Witness for C2 on the concrete batch `tpsAB`, where both periods reach
the target (references 10 and 0 respectively). -/
theorem filter_time_periods_aligns_by_own_reference_witness :
    filter_time_periods tpsAB 10 true (some 44) (some ("T"))
      = .ok ⟨pAB.period_data.map
          (fun nd => (nd.1, shiftFrame nd.2 (lookupRef pAB.reference_points nd.1))),
          pAB.warnings⟩
    ∧ ∀ nd ∈ pAB.period_data,
        pAB.reference_points.lookup nd.1
          = some (some (lookupRef pAB.reference_points nd.1))
        ∧ (shiftFrame nd.2 (lookupRef pAB.reference_points nd.1)).rows
            = nd.2.rows.map (fun r =>
                { r with seconds := r.seconds - lookupRef pAB.reference_points nd.1 })
        ∧ (∃ r ∈ nd.2.rows, r.seconds = lookupRef pAB.reference_points nd.1)
        ∧ ∃ r ∈ (shiftFrame nd.2 (lookupRef pAB.reference_points nd.1)).rows,
            r.seconds = 0 :=
  filter_time_periods_aligns_by_own_reference tpsAB 10 44 ("T") pAB
    (by decide) (by decide) (by decide) (by decide)

/-- Witness for C3 on the processed frame of the concrete period `trA`. -/
theorem find_target_temp_index_first_crossing_witness :
    find_target_temp_index (processPeriod trA 10) ("T") 44
      = .ok (((processPeriod trA 10).rows.find?
          (fun r => decide (PRow.val r ("T") ≤ 44))).map (fun r => r.idx))
    ∧ (find_target_temp_index (processPeriod trA 10) ("T") 44 = .ok none ↔
        ∀ r ∈ (processPeriod trA 10).rows, ¬ (PRow.val r ("T") ≤ 44)) :=
  find_target_temp_index_first_crossing (processPeriod trA 10) ("T") 44
    (by decide) (by decide)

/-- Witness for C4 on the concrete period `trA` with pre-roll 10: the first
retained sample sits at relative time -10. -/
theorem step3_relative_seconds_spec_witness :
    (processPeriod trA 10).rows.map (fun r => r.seconds)
      = (rA0 :: [rA1, rA2, rA3]).map (fun r => (r.datetime - rA0.datetime) - 10)
    ∧ ((processPeriod trA 10).rows.map (fun r => r.seconds)).head? = some (-10) :=
  step3_relative_seconds_spec trA 10 rA0 [rA1, rA2, rA3] (by decide)

/-- Witness for C5 on the concrete aligned line of `trA`, at the spec's two
zoom levels (10 minutes inside 60 minutes). -/
theorem clipLine_pure_subfilter_witness :
    (clipLine 10 (lineData (processPeriod trA 10) ("T"))).Sublist
        (lineData (processPeriod trA 10) ("T"))
    ∧ clipLine 10 (clipLine 60 (lineData (processPeriod trA 10) ("T")))
        = clipLine 10 (lineData (processPeriod trA 10) ("T")) :=
  clipLine_pure_subfilter (lineData (processPeriod trA 10) ("T")) 10 60 (by decide)

/-- Witness for C6 on the concrete period `trA` (sorted source), with shift
10 and a 10-minute window. -/
theorem pipeline_preserves_order_witness :
    (selectRows trA 10).Sublist trA.data.rows
    ∧ List.Pairwise (fun a b : PRow => a.seconds ≤ b.seconds) (processPeriod trA 10).rows
    ∧ List.Pairwise (fun a b : PRow => a.seconds ≤ b.seconds)
        (shiftFrame (processPeriod trA 10) 10).rows
    ∧ (clipLine 10 (lineData (shiftFrame (processPeriod trA 10) 10) ("T"))).Sublist
        (lineData (shiftFrame (processPeriod trA 10) 10) ("T"))
    ∧ List.Pairwise (fun u v : Int × Int => u.1 ≤ v.1)
        (clipLine 10 (lineData (shiftFrame (processPeriod trA 10) 10) ("T"))) :=
  pipeline_preserves_order trA 10 10 10 ("T") (by decide)

/-- Witness for C7: the sample at time 10 of `trA` is retained, by the
characterisation. -/
theorem selectRows_mem_iff_witness : rA1 ∈ selectRows trA 10 :=
  (selectRows_mem_iff trA 10 rA1).mpr ⟨by decide, by decide, by decide⟩

/-- Witness for C8 on two identical concrete runs. -/
theorem filter_time_periods_deterministic_witness :
    filter_time_periods tpsAB 10 true (some 44) (some ("T"))
      = filter_time_periods tpsAB 10 true (some 44) (some ("T")) :=
  filter_time_periods_deterministic tpsAB tpsAB 10 10 true true (some 44) (some 44)
    (some ("T")) (some ("T")) rfl rfl rfl rfl rfl

/-- Witness for the amended C9 on the concrete period `trD` with the absent
column `B`. -/
theorem filter_time_periods_missing_column_keyerror_witness :
    filter_time_periods [("A", trD)] 10 true (some 44) (some ("B"))
      = .error (.keyError ("B"))
    ∧ errorMentions (.keyError ("B")) ("B") = true :=
  filter_time_periods_missing_column_keyerror ("A") trD [] 10 44 ("B")
    (by decide) (by decide)

/-- Witness for C10: alignment requested with `target_temp = None` on a
non-empty period raises `ZeroDivisionError`. -/
theorem filter_time_periods_zero_division_on_no_references_witness :
    filter_time_periods [("A", trA)] 10 true none (some ("T"))
      = .error .zeroDivisionError :=
  filter_time_periods_zero_division_on_no_references [("A", trA)] 10 none (some ("T"))
    (Or.inl rfl)
